import Mathlib

/-!
Verification of the wsi-viewer core against its natural-language
specification.  The Python sources (`app/fs_index.py`, `app/main.py`) are
shallowly embedded below: pure helpers become Lean functions over lists of
characters, the filesystem becomes an explicit tree value, fallible
operations return `Option`/`Except`, and the HTTP handlers become pure
functions of the request parameters together with the observable
cache/decoder interactions.
-/

/-! ### Text primitives

Python string operations used by the sources, on `List Char`:
`str.lower` (ASCII case folding, the fragment exercised by names and
patterns), substring containment (`in`), `str.strip("*")` (leading and
trailing asterisk removal), and `PurePath.suffix`.
-/

/-- ASCII lowercasing of one character, the fragment of `str.lower`
relevant to file names and exclusion patterns. -/
def lowerChar (c : Char) : Char :=
  if 'A' ≤ c && c ≤ 'Z' then Char.ofNat (c.toNat + 32) else c

/-- `s.lower()` on a character list. -/
def lowerStr (s : List Char) : List Char := s.map lowerChar

/-- Boolean prefix test on character lists. -/
def isPrefixb : List Char → List Char → Bool
  | [], _ => true
  | _ :: _, [] => false
  | a :: as, b :: bs => a == b && isPrefixb as bs

/-- Python `needle in hay`: substring containment on character lists. -/
def substrb (needle : List Char) : List Char → Bool
  | [] => isPrefixb needle []
  | h :: t => isPrefixb needle (h :: t) || substrb needle t

/-- Python `s.strip("*")`: remove leading and trailing asterisks only. -/
def stripStar (s : List Char) : List Char :=
  ((s.dropWhile (· == '*')).reverse.dropWhile (· == '*')).reverse

/-- Does the pattern contain one of the glob metacharacters `*?[]`
(Python `any(c in exl for c in "*?[]")`). -/
def hasGlobChar (s : List Char) : Bool :=
  s.any fun c => c == '*' || c == '?' || c == '[' || c == ']'

/-- Python `s.startswith(c)` for a single character. -/
def startsWithChar (c : Char) : List Char → Bool
  | [] => false
  | h :: _ => h == c

/-- `PurePath.suffix` of a final path component: the extension from the
last dot, empty when there is no dot, when the dot is leading (hidden
files) or when the dot is trailing. -/
def suffixOf (name : List Char) : List Char :=
  let pre := name.reverse.takeWhile fun c => c != '.'
  if pre.length == name.length then []
  else if pre.length == 0 then []
  else if pre.length + 1 == name.length then []
  else '.' :: pre.reverse

/-! ### ExclusionMatcher (`app/fs_index.py`, `should_skip`) -/

/-- `should_skip(name, exclude)` from `app/fs_index.py`: for each pattern
(lowercased), a pattern starting with an asterisk or a dot or containing a
glob metacharacter is matched by stripping leading/trailing asterisks and
testing substring containment in the lowercased name; any other pattern is
tested as a direct substring. -/
def should_skip (name : List Char) (exclude : List (List Char)) : Bool :=
  let lname := lowerStr name
  exclude.any fun ex =>
    let exl := lowerStr ex
    if startsWithChar '*' exl || startsWithChar '.' exl || hasGlobChar exl then
      substrb (stripStar exl) lname
    else
      substrb exl lname

/-- Python `s.replace("*", "")` semantics: remove every asterisk.  Used
only by the spec-side matcher below, to compare against the source. -/
def stripAllStars (s : List Char) : List Char := s.filter (· != '*')

/-- Spec-side exclusion matcher, following the words of the specification
and of claim C2: a pattern is fuzzy when it contains a glob metacharacter
or starts with a dot; a fuzzy pattern is tested after stripping ALL
asterisks; a plain pattern is tested as a direct substring.  Declared only
to be compared with `should_skip`, which is translated from the source. -/
def excludedSpecAllStars (name : List Char) (exclude : List (List Char)) : Bool :=
  let lname := lowerStr name
  exclude.any fun ex =>
    let exl := lowerStr ex
    if hasGlobChar exl || startsWithChar '.' exl then
      substrb (stripAllStars exl) lname
    else
      substrb exl lname

/-- The amended exclusion rule of claim C2: identical to the spec wording
except that a fuzzy pattern strips only its leading and trailing
asterisks, as `str.strip` does. -/
def excludedAmended (name : List Char) (exclude : List (List Char)) : Bool :=
  let lname := lowerStr name
  exclude.any fun ex =>
    let exl := lowerStr ex
    if hasGlobChar exl || startsWithChar '.' exl then
      substrb (stripStar exl) lname
    else
      substrb exl lname

theorem fuzzyClass_eq (l : List Char) :
    (startsWithChar '*' l || startsWithChar '.' l || hasGlobChar l)
      = (hasGlobChar l || startsWithChar '.' l) := by
  cases l with
  | nil => rfl
  | cons h t =>
    by_cases hstar : h = '*'
    · subst hstar
      simp [startsWithChar, hasGlobChar]
    · simp only [startsWithChar, hasGlobChar, List.any_cons]
      by_cases hdot : h = '.'
      · subst hdot; simp
      · have h1 : (h == '*') = false := by simp [hstar]
        have h2 : (h == '.') = false := by simp [hdot]
        simp only [h1, h2, Bool.false_or]
        cases t.any fun c => c == '*' || c == '?' || c == '[' || c == ']' <;> simp

theorem substrb_nil (hay : List Char) : substrb [] hay = true := by
  cases hay <;> rfl

theorem lowerStr_all_star {p : List Char} (h : ∀ c ∈ p, c = '*') :
    lowerStr p = p := by
  induction p with
  | nil => rfl
  | cons c t ih =>
    have hc : c = '*' := h c (List.mem_cons_self c t)
    have ht : lowerStr t = t := ih fun x hx => h x (List.mem_cons_of_mem c hx)
    simp only [lowerStr, List.map_cons] at *
    rw [ht, hc]
    rfl

theorem stripStar_all_star {p : List Char} (h : ∀ c ∈ p, c = '*') :
    stripStar p = [] := by
  have hd : p.dropWhile (· == '*') = [] := by
    rw [List.dropWhile_eq_nil_iff]
    intro x hx
    simp [h x hx]
  simp [stripStar, hd]

/-- C2 counterexample input: the claim classifies the pattern by
"stripping all asterisks", but `str.strip("*")` in the source strips only
leading and trailing ones.  On name "ab" with pattern list containing
"a*b", the spec-side matcher excludes while the source does not. -/
theorem C2_counterexample :
    should_skip "ab".toList ["a*b".toList] = false ∧
      excludedSpecAllStars "ab".toList ["a*b".toList] = true := by
  constructor <;> decide

/-- C2 (amended): an entry name is excluded iff some pattern, after
lowercasing and — when it contains a glob metacharacter or starts with a
dot — after stripping its LEADING AND TRAILING asterisks, is a substring
of the lowercased name; a plain pattern is tested as a direct substring.
This is `should_skip` from the source, proved equal to the amended rule
for every name and pattern list. -/
theorem C2_should_skip_eq_amended (name : List Char) (exclude : List (List Char)) :
    should_skip name exclude = excludedAmended name exclude := by
  unfold should_skip excludedAmended
  simp only [fuzzyClass_eq]

/-- C10: a non-empty exclusion pattern consisting solely of asterisks is
classified as fuzzy, stripping leaves the empty pattern, and the empty
pattern is a substring of every lowercased name, so every entry is
skipped. -/
theorem C10_all_star_pattern_excludes_everything
    (n p : List Char) (P : List (List Char))
    (hmem : p ∈ P) (hne : p ≠ []) (hstar : ∀ c ∈ p, c = '*') :
    should_skip n P = true := by
  unfold should_skip
  rw [List.any_eq_true]
  obtain ⟨c, t, rfl⟩ : ∃ c t, p = c :: t := by
    cases p with
    | nil => exact absurd rfl hne
    | cons c t => exact ⟨c, t, rfl⟩
  have hc : c = '*' := hstar c (List.mem_cons_self c t)
  subst hc
  refine ⟨'*' :: t, hmem, ?_⟩
  simp only [lowerStr_all_star hstar, stripStar_all_star hstar, substrb_nil,
    startsWithChar]
  simp

/-- C10 witness: the pattern "*" excludes the concrete entry "data". -/
theorem C10_witness : should_skip "data".toList ["*".toList] = true :=
  C10_all_star_pattern_excludes_everything "data".toList "*".toList
    ["*".toList] (by decide) (by decide) (by decide)

/-! ### StableId (`app/fs_index.py`, `stable_id_from_path`)

`hashlib.sha1(str(p.resolve()).encode()).hexdigest()[:16]`: SHA-1 of the
UTF-8 encoding of the canonicalized path string, as lowercase hex, first
16 characters.  SHA-1 is embedded below on `Nat` with explicit reduction
modulo 2^32; path canonicalization (`Path.resolve`) is an external
filesystem operation and is passed in as a function parameter.
-/

/-- Reduction modulo 2^32, the word size of the SHA-1 state. -/
def m32 (n : Nat) : Nat := n % 4294967296

/-- 32-bit left rotation. -/
def rotl (k w : Nat) : Nat := m32 (w <<< k ||| w >>> (32 - k))

/-- Big-endian 4-byte word from the head of a byte list. -/
def word4 (bs : List Nat) : Nat :=
  (bs.getD 0 0) <<< 24 ||| (bs.getD 1 0) <<< 16 ||| (bs.getD 2 0) <<< 8 ||| bs.getD 3 0

/-- The first `n` big-endian words of a byte list. -/
def toWords : Nat → List Nat → List Nat
  | 0, _ => []
  | n + 1, bs => word4 bs :: toWords n (bs.drop 4)

/-- Message-schedule extension: the accumulator holds the words most
recent first; each step derives `w[i]` from `w[i-3]`, `w[i-8]`, `w[i-14]`
and `w[i-16]` by xor and a 1-bit rotation. -/
def extendW : Nat → List Nat → List Nat
  | 0, acc => acc
  | n + 1, acc =>
    let w := rotl 1 ((acc.getD 2 0) ^^^ (acc.getD 7 0) ^^^ (acc.getD 13 0) ^^^ (acc.getD 15 0))
    extendW n (w :: acc)

/-- Round function and constant of SHA-1 for round index `i`. -/
def fK (i b c d : Nat) : Nat × Nat :=
  if i < 20 then ((b &&& c) ||| ((b ^^^ 4294967295) &&& d), 1518500249)
  else if i < 40 then (b ^^^ c ^^^ d, 1859775393)
  else if i < 60 then ((b &&& c) ||| (b &&& d) ||| (c &&& d), 2400959708)
  else (b ^^^ c ^^^ d, 3395469782)

/-- The 80 compression rounds over the scheduled words. -/
def sha1Rounds : Nat → List Nat → Nat × Nat × Nat × Nat × Nat → Nat × Nat × Nat × Nat × Nat
  | _, [], st => st
  | i, w :: ws, (a, b, c, d, e) =>
    let fk := fK i b c d
    let temp := m32 (rotl 5 a + fk.1 + e + fk.2 + w)
    sha1Rounds (i + 1) ws (temp, a, rotl 30 b, c, d)

/-- One 64-byte block folded into the running hash state. -/
def sha1Compress (h : Nat × Nat × Nat × Nat × Nat) (block : List Nat) :
    Nat × Nat × Nat × Nat × Nat :=
  let ws := (extendW 64 ((toWords 16 block).reverse)).reverse
  match h, sha1Rounds 0 ws h with
  | (h0, h1, h2, h3, h4), (a, b, c, d, e) =>
    (m32 (h0 + a), m32 (h1 + b), m32 (h2 + c), m32 (h3 + d), m32 (h4 + e))

/-- Fold `n` consecutive 64-byte blocks into the state. -/
def sha1Blocks : Nat → List Nat → Nat × Nat × Nat × Nat × Nat → Nat × Nat × Nat × Nat × Nat
  | 0, _, h => h
  | n + 1, bs, h => sha1Blocks n (bs.drop 64) (sha1Compress h (bs.take 64))

/-- Big-endian 8-byte encoding of the bit length. -/
def be8 (n : Nat) : List Nat :=
  [n >>> 56 % 256, n >>> 48 % 256, n >>> 40 % 256, n >>> 32 % 256,
   n >>> 24 % 256, n >>> 16 % 256, n >>> 8 % 256, n % 256]

/-- SHA-1 padding: a `0x80` byte, zeros to 56 mod 64, then the bit length. -/
def sha1Pad (m : List Nat) : List Nat :=
  let r := (m.length + 1) % 64
  let k := (120 - r) % 64
  m ++ 128 :: List.replicate k 0 ++ be8 (8 * m.length)

/-- SHA-1 of a byte list, as the five-word final state. -/
def sha1 (m : List Nat) : Nat × Nat × Nat × Nat × Nat :=
  let p := sha1Pad m
  sha1Blocks (p.length / 64) p (1732584193, 4023233417, 2562383102, 271733878, 3285377520)

/-- The sixteen lowercase hex digits. -/
def hexDigit (i : Fin 16) : Char :=
  "0123456789abcdef".toList.getD i.val '0'

/-- Lowercase hexadecimal rendering of one 32-bit word: exactly eight
digits, most significant nibble first. -/
def wordToHex (w : Nat) : List Char :=
  [hexDigit ⟨w >>> 28 % 16, Nat.mod_lt _ (by decide)⟩,
   hexDigit ⟨w >>> 24 % 16, Nat.mod_lt _ (by decide)⟩,
   hexDigit ⟨w >>> 20 % 16, Nat.mod_lt _ (by decide)⟩,
   hexDigit ⟨w >>> 16 % 16, Nat.mod_lt _ (by decide)⟩,
   hexDigit ⟨w >>> 12 % 16, Nat.mod_lt _ (by decide)⟩,
   hexDigit ⟨w >>> 8 % 16, Nat.mod_lt _ (by decide)⟩,
   hexDigit ⟨w >>> 4 % 16, Nat.mod_lt _ (by decide)⟩,
   hexDigit ⟨w % 16, Nat.mod_lt _ (by decide)⟩]

/-- `hashlib.sha1(m).hexdigest()`: forty lowercase hex characters. -/
def sha1HexBytes (m : List Nat) : List Char :=
  match sha1 m with
  | (h0, h1, h2, h3, h4) =>
    wordToHex h0 ++ wordToHex h1 ++ wordToHex h2 ++ wordToHex h3 ++ wordToHex h4

/-- UTF-8 encoding of one code point (`str.encode()`). -/
def utf8Bytes (c : Nat) : List Nat :=
  if c < 128 then [c]
  else if c < 2048 then [192 ||| c >>> 6, 128 ||| c &&& 63]
  else if c < 65536 then
    [224 ||| c >>> 12, 128 ||| (c >>> 6) &&& 63, 128 ||| c &&& 63]
  else
    [240 ||| c >>> 18, 128 ||| (c >>> 12) &&& 63, 128 ||| (c >>> 6) &&& 63, 128 ||| c &&& 63]

/-- UTF-8 bytes of a character list. -/
def strBytes (s : List Char) : List Nat := (s.map fun c => utf8Bytes c.toNat).flatten

/-- `stable_id_from_path` from `app/fs_index.py`: the path is
canonicalized by `Path.resolve` (passed in as `resolve`), rendered as a
string, UTF-8 encoded, SHA-1 hashed, and the first 16 hex characters of
the digest are the id. -/
def stable_id_from_path (resolve : List Char → List Char) (p : List Char) : List Char :=
  (sha1HexBytes (strBytes (resolve p))).take 16

set_option maxRecDepth 100000 in
example : sha1HexBytes (strBytes "abc".toList)
    = "a9993e364706816aba3e25717850c26c9cd0d89d".toList := by decide

set_option maxRecDepth 100000 in
example : sha1HexBytes (strBytes "".toList)
    = "da39a3ee5e6b4b0d3255bfef95601890afd80709".toList := by decide

/-- A lowercase hexadecimal character. -/
def isHexChar (c : Char) : Bool := ('0' ≤ c && c ≤ '9') || ('a' ≤ c && c ≤ 'f')

theorem hexDigit_isHex : ∀ i : Fin 16, isHexChar (hexDigit i) = true := by decide

theorem wordToHex_length (w : Nat) : (wordToHex w).length = 8 := rfl

theorem wordToHex_isHex (w : Nat) : ∀ c ∈ wordToHex w, isHexChar c = true := by
  intro c hc
  simp only [wordToHex, List.mem_cons, List.not_mem_nil, or_false] at hc
  rcases hc with h | h | h | h | h | h | h | h <;> (subst h; exact hexDigit_isHex _)

theorem sha1HexBytes_length (m : List Nat) : (sha1HexBytes m).length = 40 := by
  rcases hsha : sha1 m with ⟨h0, h1, h2, h3, h4⟩
  simp [sha1HexBytes, hsha, wordToHex]

theorem sha1HexBytes_isHex (m : List Nat) :
    ∀ c ∈ sha1HexBytes m, isHexChar c = true := by
  rcases hsha : sha1 m with ⟨h0, h1, h2, h3, h4⟩
  intro c hc
  simp only [sha1HexBytes, hsha, List.mem_append] at hc
  rcases hc with ((((h | h) | h) | h) | h) <;> exact wordToHex_isHex _ c h

/-- C8: the stable id of a path is a fixed 16-character lowercase
hexadecimal string, computed by SHA-1 from the canonicalized path string,
and it is a pure function of the canonical path — computing it twice, or
for any two paths with the same canonical form, yields the identical
string, independent of file content. -/
theorem C8_stable_id_sixteen_hex_deterministic
    (resolve : List Char → List Char) (p : List Char) :
    (stable_id_from_path resolve p).length = 16 ∧
    (∀ c ∈ stable_id_from_path resolve p, isHexChar c = true) ∧
    (∀ q, resolve p = resolve q →
      stable_id_from_path resolve p = stable_id_from_path resolve q) := by
  refine ⟨?_, ?_, ?_⟩
  · simp [stable_id_from_path, List.length_take, sha1HexBytes_length]
  · intro c hc
    exact sha1HexBytes_isHex _ c (List.take_subset _ _ hc)
  · intro q hq
    simp [stable_id_from_path, hq]

/-- C8 witness: the id of the concrete path "/a" under the identity
canonicalization is sixteen hex characters and is reproducible. -/
theorem C8_witness :
    (stable_id_from_path (fun s => s) "/a".toList).length = 16 ∧
    (∀ c ∈ stable_id_from_path (fun s => s) "/a".toList, isHexChar c = true) ∧
    stable_id_from_path (fun s => s) "/a".toList
      = stable_id_from_path (fun s => s) "/a".toList :=
  ⟨(C8_stable_id_sixteen_hex_deterministic (fun s => s) "/a".toList).1,
   (C8_stable_id_sixteen_hex_deterministic (fun s => s) "/a".toList).2.1,
   (C8_stable_id_sixteen_hex_deterministic (fun s => s) "/a".toList).2.2
     "/a".toList rfl⟩

/-! ### Filesystem model

A fixed directory state.  `file` and `dir` entries answer `is_file` /
`is_dir`; a `dir` whose `listable` flag is false raises `OSError` from
`iterdir` (an unreadable directory); an `inaccessible` entry is one whose
stat information cannot be obtained — `pathlib` reports `False` for both
`is_file()` and `is_dir()` on such entries (missing target, broken
symlink), and the per-entry `except (PermissionError, OSError): continue`
in the scan skips an entry whose stat propagates instead, so either way
the entry contributes nothing and the scan continues.
-/

inductive FSNode where
  | file (name : List Char)
  | dir (name : List Char) (listable : Bool) (entries : List FSNode)
  | inaccessible (name : List Char)

def FSNode.entryName : FSNode → List Char
  | .file n => n
  | .dir n _ _ => n
  | .inaccessible n => n

/-- `Path.is_dir()` on a fixed state. -/
def FSNode.isDirB : FSNode → Bool
  | .dir _ _ _ => true
  | _ => false

/-- `Path.is_file()` on a fixed state. -/
def FSNode.isFileB : FSNode → Bool
  | .file _ => true
  | _ => false

/-- `Path.iterdir()`: the entry list of a listable directory, `OSError`
(here `none`) for an unreadable directory or a non-directory. -/
def iterdir : FSNode → Option (List FSNode)
  | .dir _ true es => some es
  | _ => none

/-! ### Stable insertion sort

`list.sort(key=...)` is a stable sort by a total preorder; it is embedded
as insertion sort, which is stable and produces a pairwise-ordered
permutation of its input.
-/

def insertLe (le : α → α → Bool) (x : α) : List α → List α
  | [] => [x]
  | y :: ys => if le x y then x :: y :: ys else y :: insertLe le x ys

def isortLe (le : α → α → Bool) : List α → List α
  | [] => []
  | x :: xs => insertLe le x (isortLe le xs)

theorem insertLe_perm (le : α → α → Bool) (x : α) (l : List α) :
    (insertLe le x l).Perm (x :: l) := by
  induction l with
  | nil => exact List.Perm.refl _
  | cons y ys ih =>
    by_cases h : le x y = true
    · simp only [insertLe, h, if_true]
      exact List.Perm.refl _
    · simp only [insertLe, h, if_false]
      exact (ih.cons y).trans (List.Perm.swap x y ys)

theorem isortLe_perm (le : α → α → Bool) (l : List α) :
    (isortLe le l).Perm l := by
  induction l with
  | nil => exact List.Perm.refl _
  | cons x xs ih =>
    exact (insertLe_perm le x (isortLe le xs)).trans (ih.cons x)

theorem pairwise_insertLe (le : α → α → Bool)
    (htrans : ∀ a b c, le a b = true → le b c = true → le a c = true)
    (htot : ∀ a b, le a b = true ∨ le b a = true)
    (x : α) (l : List α) (hl : l.Pairwise fun a b => le a b = true) :
    (insertLe le x l).Pairwise fun a b => le a b = true := by
  induction l with
  | nil => simp [insertLe]
  | cons y ys ih =>
    rcases List.pairwise_cons.mp hl with ⟨hy, hys⟩
    by_cases h : le x y = true
    · simp only [insertLe, h, if_true]
      refine List.pairwise_cons.mpr ⟨?_, hl⟩
      intro z hz
      rcases List.mem_cons.mp hz with rfl | hz2
      · exact h
      · exact htrans x y z h (hy z hz2)
    · have hyx : le y x = true := (htot x y).resolve_left h
      simp only [insertLe, h, if_false]
      refine List.pairwise_cons.mpr ⟨?_, ih hys⟩
      intro z hz
      rcases List.mem_cons.mp ((insertLe_perm le x ys).mem_iff.mp hz) with rfl | hz2
      · exact hyx
      · exact hy z hz2

theorem pairwise_isortLe (le : α → α → Bool)
    (htrans : ∀ a b c, le a b = true → le b c = true → le a c = true)
    (htot : ∀ a b, le a b = true ∨ le b a = true)
    (l : List α) :
    (isortLe le l).Pairwise fun a b => le a b = true := by
  induction l with
  | nil => simp [isortLe]
  | cons x xs ih => exact pairwise_insertLe le htrans htot x _ ih

/-! ### Python comparison of `(bool, str)` sort keys -/

/-- Python `<=` on strings: lexicographic by code point. -/
def lexLE : List Char → List Char → Bool
  | [], _ => true
  | _ :: _, [] => false
  | a :: as, b :: bs => a.toNat < b.toNat || (a.toNat == b.toNat && lexLE as bs)

theorem lexLE_trans (a : List Char) :
    ∀ b c, lexLE a b = true → lexLE b c = true → lexLE a c = true := by
  induction a with
  | nil => intro b c _ _; rfl
  | cons x xs ih =>
    intro b c hab hbc
    cases b with
    | nil => simp [lexLE] at hab
    | cons y ys =>
      cases c with
      | nil => simp [lexLE] at hbc
      | cons z zs =>
        simp only [lexLE, Bool.or_eq_true, Bool.and_eq_true, decide_eq_true_eq,
          beq_iff_eq] at *
        rcases hab with h1 | ⟨h1, h1b⟩ <;> rcases hbc with h2 | ⟨h2, h2b⟩
        · left; omega
        · left; omega
        · left; omega
        · right; exact ⟨by omega, ih ys zs h1b h2b⟩

theorem lexLE_total (a : List Char) :
    ∀ b, lexLE a b = true ∨ lexLE b a = true := by
  induction a with
  | nil => intro b; left; rfl
  | cons x xs ih =>
    intro b
    cases b with
    | nil => right; rfl
    | cons y ys =>
      simp only [lexLE, Bool.or_eq_true, Bool.and_eq_true, decide_eq_true_eq,
        beq_iff_eq]
      rcases Nat.lt_trichotomy x.toNat y.toNat with h | h | h
      · left; left; exact h
      · rcases ih ys with h2 | h2
        · left; right; exact ⟨h, h2⟩
        · right; right; exact ⟨h.symm, h2⟩
      · right; left; exact h

/-- Python tuple comparison on a `(bool, str)` sort key, with
`False < True`. -/
def pairLE (p q : Bool × List Char) : Bool :=
  (!p.1 && q.1) || (p.1 == q.1 && lexLE p.2 q.2)

theorem pairLE_trans (p q r : Bool × List Char)
    (h1 : pairLE p q = true) (h2 : pairLE q r = true) : pairLE p r = true := by
  rcases p with ⟨pb, pl⟩
  rcases q with ⟨qb, ql⟩
  rcases r with ⟨rb, rl⟩
  simp only [pairLE, Bool.or_eq_true, Bool.and_eq_true, Bool.not_eq_eq_eq_not,
    beq_iff_eq] at *
  cases pb <;> cases qb <;> cases rb <;> simp_all
  · exact lexLE_trans _ _ _ h1 h2
  · exact lexLE_trans _ _ _ h1 h2

theorem pairLE_total (p q : Bool × List Char) :
    pairLE p q = true ∨ pairLE q p = true := by
  rcases p with ⟨pb, pl⟩
  rcases q with ⟨qb, ql⟩
  simp only [pairLE, Bool.or_eq_true, Bool.and_eq_true, beq_iff_eq]
  cases pb <;> cases qb <;> simp_all
  · exact lexLE_total pl ql
  · exact lexLE_total pl ql

/-! ### LazyTreeIndexer (`app/fs_index.py`) -/

/-- The `Node` data model of `app/models.py`: a directory entry of the
browsing tree. -/
structure Node where
  id : List Char
  name : List Char
  path : List Char
  is_dir : Bool
  children : Option (List Node)
  slide_count : Nat
  has_children : Bool

/-- The key of `entries.sort(key=lambda x: (x.is_file(), x.name.lower()))`
in `scan_directory_shallow`. -/
def entryKey (e : FSNode) : Bool × List Char := (e.isFileB, lowerStr e.entryName)

def entryLE (a b : FSNode) : Bool := pairLE (entryKey a) (entryKey b)

/-- The key of `children.sort(key=lambda n: (n.slide_count == 0,
n.name.lower()))` in `build_tree_shallow` and `api_expand`. -/
def nodeKey (n : Node) : Bool × List Char := (n.slide_count == 0, lowerStr n.name)

def nodeLE (a b : Node) : Bool := pairLE (nodeKey a) (nodeKey b)

/-- The absolute path of a direct child entry. -/
def childPath (dirPath name : List Char) : List Char := dirPath ++ '/' :: name

/-- Does a file entry count as a slide:
`entry.suffix.lower() in extensions`. -/
def slideExt (extensions : List (List Char)) (name : List Char) : Bool :=
  extensions.contains (lowerStr (suffixOf name))

/-- `count_slides_in_directory(dirp, extensions, exclude, recursive=False)`
from `app/fs_index.py` — the only mode the shallow scan uses: count the
direct file children that are not excluded and whose lowercased suffix is
a configured extension; an unreadable directory counts zero (the
`except (PermissionError, OSError)` around the loop). -/
def count_slides_in_directory (d : FSNode) (extensions exclude : List (List Char)) : Nat :=
  match iterdir d with
  | none => 0
  | some es =>
    es.countP fun e =>
      e.isFileB && !should_skip e.entryName exclude && slideExt extensions e.entryName

/-- `check_has_subdirs(dirp, exclude)` from `app/fs_index.py`: iterate the
directory and return true on the first non-excluded subdirectory; an
unreadable directory (`except (PermissionError, OSError): pass`) reports
false. -/
def check_has_subdirs (d : FSNode) (exclude : List (List Char)) : Bool :=
  match iterdir d with
  | none => false
  | some es => es.any fun e => e.isDirB && !should_skip e.entryName exclude

/-- One iteration of the entry loop of `scan_directory_shallow`: an
excluded entry contributes nothing; a directory entry contributes a child
`Node` (children deferred, `slide_count` from the non-recursive count,
`has_children` from `check_has_subdirs`) and its direct slide count; a
file entry contributes one to the total when its suffix matches; an entry
that is neither (stat unobtainable) is skipped. -/
def scanEntry (dirPath : List Char) (extensions exclude : List (List Char))
    (e : FSNode) : Option Node × Nat :=
  if should_skip e.entryName exclude then (none, 0)
  else if e.isDirB then
    let dsc := count_slides_in_directory e extensions exclude
    (some
      { id := stable_id_from_path (fun s => s) (childPath dirPath e.entryName)
        name := e.entryName
        path := childPath dirPath e.entryName
        is_dir := true
        children := none
        slide_count := dsc
        has_children := check_has_subdirs e exclude }, dsc)
  else if e.isFileB then
    (none, if slideExt extensions e.entryName then 1 else 0)
  else (none, 0)

/-- The entry loop of `scan_directory_shallow`, accumulating child nodes
in order and the total slide count. -/
def scanLoop (dirPath : List Char) (extensions exclude : List (List Char)) :
    List FSNode → List Node × Nat
  | [] => ([], 0)
  | e :: rest =>
    let r := scanEntry dirPath extensions exclude e
    let rr := scanLoop dirPath extensions exclude rest
    (match r.1 with
     | some n => n :: rr.1
     | none => rr.1, r.2 + rr.2)

/-- `scan_directory_shallow(dirp, extensions, exclude)` from
`app/fs_index.py`: list the directory (an unlistable directory returns
`([], 0)` via the outer `except`), sort the entries by
`(is_file, name.lower())`, then run the entry loop. -/
def scan_directory_shallow (d : FSNode) (dirPath : List Char)
    (extensions exclude : List (List Char)) : List Node × Nat :=
  match iterdir d with
  | none => ([], 0)
  | some es => scanLoop dirPath extensions exclude (isortLe entryLE es)

/-- `build_tree_shallow(root_path, extensions, exclude)` from
`app/fs_index.py`: shallow-scan the root, sort the children by
`(slide_count == 0, name.lower())`, and wrap them in a root node.  The
model treats `rootPath` as already canonical (`root_path.resolve()` is
the identity on it). -/
def build_tree_shallow (d : FSNode) (rootPath : List Char)
    (extensions exclude : List (List Char)) : Node :=
  let r := scan_directory_shallow d rootPath extensions exclude
  let sorted := isortLe nodeLE r.1
  { id := stable_id_from_path (fun s => s) rootPath
    name := d.entryName
    path := rootPath
    is_dir := true
    children := some sorted
    slide_count := r.2
    has_children := decide (0 < sorted.length) }

/-- The children list returned by the `/api/expand` handler of
`app/main.py`: one shallow scan of the requested directory followed by
`children.sort(key=lambda n: (n.slide_count == 0, n.name.lower()))`. -/
def api_expand_children (d : FSNode) (dirPath : List Char)
    (extensions exclude : List (List Char)) : List Node :=
  isortLe nodeLE (scan_directory_shallow d dirPath extensions exclude).1

/-! ### C1: what the shallow scan counts -/

theorem scanLoop_snd (dirPath : List Char) (extensions exclude : List (List Char))
    (es : List FSNode) :
    (scanLoop dirPath extensions exclude es).2
      = (es.map fun e => (scanEntry dirPath extensions exclude e).2).sum := by
  induction es with
  | nil => rfl
  | cons e rest ih => simp [scanLoop, ih]

theorem scan_snd_of_iterdir (d : FSNode) (es : List FSNode) (dirPath : List Char)
    (extensions exclude : List (List Char)) (h : iterdir d = some es) :
    (scan_directory_shallow d dirPath extensions exclude).2
      = (es.map fun e => (scanEntry dirPath extensions exclude e).2).sum := by
  rw [scan_directory_shallow, h]
  rw [scanLoop_snd]
  exact ((isortLe_perm entryLE es).map _).sum_eq

/-- Direct file children of a listing that match an extension and are not
excluded, as a count. -/
def directSlideCount (extensions exclude : List (List Char)) (es : List FSNode) : Nat :=
  (es.map fun e =>
    if e.isFileB && !should_skip e.entryName exclude && slideExt extensions e.entryName
    then 1 else 0).sum

/-- Sum over the non-excluded immediate subdirectories of their own
direct-file slide counts. -/
def subdirSlideSum (extensions exclude : List (List Char)) (es : List FSNode) : Nat :=
  (es.map fun e =>
    if e.isDirB && !should_skip e.entryName exclude
    then count_slides_in_directory e extensions exclude else 0).sum

theorem scanEntry_snd_split (dirPath : List Char) (extensions exclude : List (List Char))
    (e : FSNode) :
    (scanEntry dirPath extensions exclude e).2
      = (if e.isFileB && !should_skip e.entryName exclude
            && slideExt extensions e.entryName then 1 else 0)
        + (if e.isDirB && !should_skip e.entryName exclude
            then count_slides_in_directory e extensions exclude else 0) := by
  cases e with
  | file n =>
    by_cases hs : should_skip n exclude = true
    · simp [scanEntry, FSNode.entryName, FSNode.isDirB, FSNode.isFileB, hs]
    · simp only [Bool.not_eq_true] at hs
      by_cases hx : slideExt extensions n = true
      · simp [scanEntry, FSNode.entryName, FSNode.isDirB, FSNode.isFileB, hs, hx]
      · simp only [Bool.not_eq_true] at hx
        simp [scanEntry, FSNode.entryName, FSNode.isDirB, FSNode.isFileB, hs, hx]
  | dir n lb es =>
    by_cases hs : should_skip n exclude = true
    · simp [scanEntry, FSNode.entryName, FSNode.isDirB, FSNode.isFileB, hs]
    · simp only [Bool.not_eq_true] at hs
      simp [scanEntry, FSNode.entryName, FSNode.isDirB, FSNode.isFileB, hs]
  | inaccessible n =>
    by_cases hs : should_skip n exclude = true
    · simp [scanEntry, FSNode.entryName, FSNode.isDirB, FSNode.isFileB, hs]
    · simp only [Bool.not_eq_true] at hs
      simp [scanEntry, FSNode.entryName, FSNode.isDirB, FSNode.isFileB, hs]

/-- The concrete directory of the C1 scenario: files a.svs and b.svs plus
a subdirectory subdir holding c.svs. -/
def c1Root : FSNode :=
  .dir "root".toList true
    [.file "a.svs".toList, .file "b.svs".toList,
     .dir "subdir".toList true [.file "c.svs".toList]]

set_option maxRecDepth 100000 in
/-- C1 counterexample: on the claim's own scenario the scan reports
subdir with slide_count 1, but the aggregate total is 3, not the claimed
2 — `scan_directory_shallow` adds each immediate subdirectory's direct
slide count into the total (`slide_count += dir_slide_count`), so files
one level inside subdirectories ARE counted. -/
theorem C1_counterexample :
    ((scan_directory_shallow c1Root "/root".toList [".svs".toList] []).1.map
        fun n => n.slide_count) = [1] ∧
    (scan_directory_shallow c1Root "/root".toList [".svs".toList] []).2 = 3 ∧
    (scan_directory_shallow c1Root "/root".toList [".svs".toList] []).2 ≠ 2 := by
  refine ⟨?_, ?_, ?_⟩ <;> decide

/-- C1 (amended): the total returned by the shallow scan is the number of
direct file children matching an extension PLUS the sum, over the
non-excluded immediate subdirectories, of their direct matching-file
counts (still never deeper than one level below the children); on the
scenario this gives 2 + 1 = 3. -/
theorem C1_scan_total_direct_plus_subdirs
    (d : FSNode) (es : List FSNode) (dirPath : List Char)
    (extensions exclude : List (List Char)) (h : iterdir d = some es) :
    (scan_directory_shallow d dirPath extensions exclude).2
      = directSlideCount extensions exclude es + subdirSlideSum extensions exclude es := by
  rw [scan_snd_of_iterdir d es dirPath extensions exclude h]
  clear h
  unfold directSlideCount subdirSlideSum
  induction es with
  | nil => rfl
  | cons e rest ih =>
    simp only [List.map_cons, List.sum_cons]
    rw [scanEntry_snd_split, ih]
    omega

set_option maxRecDepth 100000 in
/-- C1 witness: the amended equation evaluated on the scenario directory,
where it yields 3 = 2 + 1. -/
theorem C1_witness :
    (scan_directory_shallow c1Root "/root".toList [".svs".toList] []).2
      = directSlideCount [".svs".toList] []
          [.file "a.svs".toList, .file "b.svs".toList,
           .dir "subdir".toList true [.file "c.svs".toList]]
        + subdirSlideSum [".svs".toList] []
          [.file "a.svs".toList, .file "b.svs".toList,
           .dir "subdir".toList true [.file "c.svs".toList]] :=
  C1_scan_total_direct_plus_subdirs c1Root _ "/root".toList [".svs".toList] [] rfl

/-! ### C3: how has_children is computed -/

/-- The probe described by claim C3, stated from the claim's words so it
can be compared with the source's `check_has_subdirs`: inspect at most 11
entries; report true as soon as one of the first 11 is a permitted,
non-excluded subdirectory; report true optimistically when the probe
exhausts 10 entries without a definitive answer; report unknown (`none`)
when the directory is unreadable. -/
def probeHasChildrenClaim (d : FSNode) (exclude : List (List Char)) : Option Bool :=
  match iterdir d with
  | none => none
  | some es =>
    if (es.take 11).any fun e => e.isDirB && !should_skip e.entryName exclude then
      some true
    else if 10 ≤ es.length then some true
    else some false

/-- A directory holding eleven plain files and no subdirectory. -/
def c3ElevenFiles : FSNode :=
  .dir "d".toList true
    [.file "f0".toList, .file "f1".toList, .file "f2".toList, .file "f3".toList,
     .file "f4".toList, .file "f5".toList, .file "f6".toList, .file "f7".toList,
     .file "f8".toList, .file "f9".toList, .file "fa".toList]

/-- An unreadable directory. -/
def c3Unreadable : FSNode := .dir "locked".toList false []

set_option maxRecDepth 100000 in
/-- C3 counterexample: the source's `check_has_subdirs` is an unbounded
exhaustive check with no optimistic cutoff and no unknown outcome.  On a
directory of eleven plain files the claimed probe answers true (budget
exhausted without a definitive answer) while the code answers false; on
an unreadable directory the claimed probe answers unknown while the code
answers false. -/
theorem C3_counterexample :
    check_has_subdirs c3ElevenFiles [] = false ∧
    probeHasChildrenClaim c3ElevenFiles [] = some true ∧
    check_has_subdirs c3Unreadable [] = false ∧
    probeHasChildrenClaim c3Unreadable [] = none := by
  refine ⟨?_, ?_, ?_, ?_⟩ <;> decide

/-- C3 (amended): for a child directory emitted by the shallow scan, the
has_children flag is computed by `check_has_subdirs`, which inspects the
child's entries without any bound and reports true exactly when the child
is readable and some entry is a permitted, non-excluded subdirectory;
an unreadable child reports false, not unknown. -/
theorem C3_has_children_unbounded
    (dirPath : List Char) (extensions exclude : List (List Char))
    (name : List Char) (listable : Bool) (es : List FSNode)
    (hskip : should_skip name exclude = false) :
    ((scanEntry dirPath extensions exclude (.dir name listable es)).1.map
        fun n => n.has_children)
      = some (listable && es.any fun e =>
          e.isDirB && !should_skip e.entryName exclude) := by
  simp only [scanEntry, FSNode.entryName, FSNode.isDirB, hskip, Bool.false_eq_true,
    if_false, if_true, Option.map_some]
  cases listable with
  | false => simp [check_has_subdirs, iterdir]
  | true =>
    simp only [check_has_subdirs, iterdir, Bool.true_and]
    rfl

/-- C3 witness: a readable child with one subdirectory entry yields
has_children true on the emitted node. -/
theorem C3_witness :
    ((scanEntry "/r".toList [] [] (.dir "s".toList true [.dir "t".toList true []])).1.map
        fun n => n.has_children)
      = some (true && [FSNode.dir "t".toList true []].any fun e =>
          e.isDirB && !should_skip e.entryName []) :=
  C3_has_children_unbounded "/r".toList [] [] "s".toList true
    [.dir "t".toList true []] rfl

/-! ### C5: degradation instead of failure -/

theorem scanEntry_inaccessible (dirPath : List Char)
    (extensions exclude : List (List Char)) (nm : List Char) :
    scanEntry dirPath extensions exclude (.inaccessible nm) = (none, 0) := by
  by_cases hs : should_skip nm exclude = true
  · simp [scanEntry, FSNode.entryName, hs]
  · simp only [Bool.not_eq_true] at hs
    simp [scanEntry, FSNode.entryName, FSNode.isDirB, FSNode.isFileB, hs]

theorem insertLe_decomp (le : α → α → Bool) (x : α) (l : List α) :
    ∃ l1 l2, insertLe le x l = l1 ++ x :: l2 ∧ l = l1 ++ l2 := by
  induction l with
  | nil => exact ⟨[], [], rfl, rfl⟩
  | cons y ys ih =>
    by_cases h : le x y = true
    · exact ⟨[], y :: ys, by simp [insertLe, h], rfl⟩
    · obtain ⟨l1, l2, h1, h2⟩ := ih
      exact ⟨y :: l1, l2, by simp [insertLe, h, h1], by simp [h2]⟩

theorem scanLoop_skip_mid (dirPath : List Char) (extensions exclude : List (List Char))
    (e : FSNode) (he : scanEntry dirPath extensions exclude e = (none, 0))
    (l1 l2 : List FSNode) :
    scanLoop dirPath extensions exclude (l1 ++ e :: l2)
      = scanLoop dirPath extensions exclude (l1 ++ l2) := by
  induction l1 with
  | nil =>
    simp only [List.nil_append, scanLoop, he, Nat.zero_add]
  | cons f fs ih =>
    simp only [List.cons_append, scanLoop, List.append_eq, ih]

/-- C5: the shallow scan and the slide counter never raise — an
unreadable directory (or a non-directory argument) degrades to empty
children with slide count zero through the `except (PermissionError,
OSError)` handlers, and an entry whose stat information is unobtainable
is skipped without disturbing the rest of the listing. -/
theorem C5_scan_degrades_never_raises
    (dirPath : List Char) (extensions exclude : List (List Char)) :
    (∀ (name : List Char) (es : List FSNode),
      scan_directory_shallow (.dir name false es) dirPath extensions exclude = ([], 0)) ∧
    (∀ name : List Char,
      scan_directory_shallow (.file name) dirPath extensions exclude = ([], 0) ∧
      scan_directory_shallow (.inaccessible name) dirPath extensions exclude = ([], 0)) ∧
    (∀ (name : List Char) (es : List FSNode),
      count_slides_in_directory (.dir name false es) extensions exclude = 0) ∧
    (∀ (name nm : List Char) (rest : List FSNode),
      scan_directory_shallow (.dir name true (.inaccessible nm :: rest))
          dirPath extensions exclude
        = scan_directory_shallow (.dir name true rest) dirPath extensions exclude) := by
  refine ⟨?_, ?_, ?_, ?_⟩
  · intro name es
    simp [scan_directory_shallow, iterdir]
  · intro name
    constructor <;> simp [scan_directory_shallow, iterdir]
  · intro name es
    simp [count_slides_in_directory, iterdir]
  · intro name nm rest
    simp only [scan_directory_shallow, iterdir]
    have hins : isortLe entryLE (FSNode.inaccessible nm :: rest)
        = insertLe entryLE (.inaccessible nm) (isortLe entryLE rest) := rfl
    obtain ⟨l1, l2, h1, h2⟩ :=
      insertLe_decomp entryLE (FSNode.inaccessible nm) (isortLe entryLE rest)
    rw [hins, h1,
      scanLoop_skip_mid dirPath extensions exclude _
        (scanEntry_inaccessible dirPath extensions exclude nm) l1 l2, ← h2]

/-! ### C6: ordering of sibling nodes -/

/-- The ordering claimed for sibling nodes: a node with slides never
follows one without, and nodes of the same class are in ascending
case-insensitive name order. -/
def claimOrder (a b : Node) : Prop :=
  (a.slide_count = 0 → b.slide_count = 0) ∧
  ((a.slide_count = 0 ↔ b.slide_count = 0) →
    lexLE (lowerStr a.name) (lowerStr b.name) = true)

theorem nodeLE_imp_claimOrder (a b : Node) (h : nodeLE a b = true) : claimOrder a b := by
  simp only [nodeLE, pairLE, nodeKey, Bool.or_eq_true, Bool.and_eq_true,
    Bool.not_eq_eq_eq_not, beq_iff_eq, Bool.not_true] at h
  rcases h with ⟨ha, hb⟩ | ⟨hab, hlex⟩
  · have ha2 : a.slide_count ≠ 0 := by
      intro h0
      rw [h0] at ha
      simp at ha
    constructor
    · intro h0
      exact absurd h0 ha2
    · intro hiff
      exact absurd (hiff.mpr hb) ha2
  · constructor
    · intro h0
      have hb2 : (b.slide_count == 0) = true := by
        rw [← hab]
        simp [h0]
      simpa using hb2
    · intro _
      exact hlex

theorem nodeLE_trans (a b c : Node) (h1 : nodeLE a b = true) (h2 : nodeLE b c = true) :
    nodeLE a c = true :=
  pairLE_trans (nodeKey a) (nodeKey b) (nodeKey c) h1 h2

theorem nodeLE_total (a b : Node) : nodeLE a b = true ∨ nodeLE b a = true :=
  pairLE_total (nodeKey a) (nodeKey b)

/-- C6: every children list produced by building the shallow tree or by
expanding a directory is pairwise ordered so that nodes with slides
precede slide-free nodes, with case-insensitive name order inside each
class — the `children.sort(key=lambda n: (n.slide_count == 0,
n.name.lower()))` invariant of `build_tree_shallow` and `api_expand`. -/
theorem C6_sibling_sort_invariant
    (d : FSNode) (p : List Char) (extensions exclude : List (List Char))
    (d2 : FSNode) (p2 : List Char) (extensions2 exclude2 : List (List Char)) :
    (((build_tree_shallow d p extensions exclude).children.getD []).Pairwise claimOrder) ∧
    ((api_expand_children d2 p2 extensions2 exclude2).Pairwise claimOrder) := by
  constructor
  · have hs : (build_tree_shallow d p extensions exclude).children
        = some (isortLe nodeLE (scan_directory_shallow d p extensions exclude).1) := rfl
    rw [hs, Option.getD_some]
    exact (pairwise_isortLe nodeLE nodeLE_trans nodeLE_total _).imp
      fun h => nodeLE_imp_claimOrder _ _ h
  · exact (pairwise_isortLe nodeLE nodeLE_trans nodeLE_total _).imp
      fun h => nodeLE_imp_claimOrder _ _ h

/-! ### PyramidTileServer and cache facade (`app/main.py`)

The `/api/thumb` and `/dzi` tile handlers are embedded as pure functions
of their observable inputs: the cache-get outcome (an `Except` whose
error case is a backend failure), the per-request cancelled flag read
from the tracking table, the resolver outcome, and the behaviour of the
external decoder.  The tile handler also returns the list of decoder
invocations it performed.
-/

inductive Resp where
  | ok (body : List Nat)
  | notFound
  | serverError
  | clientClosed
  deriving DecidableEq

inductive DecoderOp where
  | openSlide
  | extractTile
  deriving DecidableEq

/-- The external decoder for one slide: its deep-zoom level count and its
region-extraction primitive. -/
structure Slide where
  levelCount : Nat
  tileJpeg : Int → Int → Int → Except Unit (List Nat)

/-- `raw = cache.get(ck)` wrapped in `try/except` — a backend failure is
swallowed and treated as a miss. -/
def cacheRaw (g : Except Unit (Option (List Nat))) : Option (List Nat) :=
  match g with
  | .error _ => none
  | .ok r => r

/-- Python truthiness of `if raw:` — both `None` and an empty byte string
count as a miss. -/
def truthy : Option (List Nat) → Option (List Nat)
  | some (b :: t) => some (b :: t)
  | _ => none

/-- The `get_tile` closure of `dzi_tile` in `app/main.py`:
`openslide.open_slide` runs first (one decoder invocation — the deep-zoom
level count is only known through the opened handle); a level outside
`[0, level_count)` then raises `HTTPException(404)` and the handle is
closed without any region extraction; otherwise the region is extracted
and encoded (a second decoder invocation), a decoder failure mapping to a
500. -/
def get_tile (s : Slide) (level x y : Int) : Resp × List DecoderOp :=
  if level < 0 ∨ (s.levelCount : Int) ≤ level then (.notFound, [.openSlide])
  else
    match s.tileJpeg level x y with
    | .error _ => (.serverError, [.openSlide, .extractTile])
    | .ok img => (.ok img, [.openSlide, .extractTile])

/-- The `/dzi/.../{level}/{x}_{y}.jpeg` handler of `app/main.py`: cache
lookup (failures swallowed, empty or missing value is a miss), cancelled
check, id resolution (miss is a 404), then `get_tile`. -/
def dzi_tile (g : Except Unit (Option (List Nat))) (cancelled : Bool)
    (resolved : Option Slide) (level x y : Int) : Resp × List DecoderOp :=
  match truthy (cacheRaw g) with
  | some bytes => (.ok bytes, [])
  | none =>
    if cancelled then (.clientClosed, [])
    else
      match resolved with
      | none => (.notFound, [])
      | some s => get_tile s level x y

/-- The `/api/thumb/{slide_id}` handler of `app/main.py`: cache lookup
(failures swallowed, empty or missing value is a miss), cancelled check,
id resolution (miss is a 404), then `make_preview_bytes` in the worker
pool (failure is a 500). -/
def api_thumb (g : Except Unit (Option (List Nat))) (cancelled : Bool)
    (resolved : Option (List Char)) (preview : Except Unit (List Nat)) : Resp :=
  match truthy (cacheRaw g) with
  | some bytes => .ok bytes
  | none =>
    if cancelled then .clientClosed
    else
      match resolved with
      | none => .notFound
      | some _ =>
        match preview with
        | .error _ => .serverError
        | .ok img => .ok img

/-! ### C4: invalid pyramid level -/

/-- A concrete three-level slide whose extraction always succeeds. -/
def c4Slide : Slide := { levelCount := 3, tileJpeg := fun _ _ _ => .ok [1] }

/-- C4 counterexample: requesting level 5 of a three-level slide (cache
miss, slide resolved) yields NotFound, but the decoder invocation list is
not empty — the slide is opened through the external decoder to learn the
level count before the bound check, so "the external decoder is never
invoked" fails as stated. -/
theorem C4_counterexample :
    dzi_tile (.ok none) false (some c4Slide) 5 0 0 = (.notFound, [.openSlide]) ∧
    (dzi_tile (.ok none) false (some c4Slide) 5 0 0).2 ≠ [] := by
  constructor <;> decide

/-- C4 (amended): for every tile request with a cache miss and a resolved
slide whose level lies outside `[0, levelCount)`, the result is NotFound
and the region-extraction primitive is never invoked — the only decoder
interaction is opening the slide to obtain the level count. -/
theorem C4_invalid_level_notfound_no_extraction
    (g : Except Unit (Option (List Nat))) (s : Slide) (level x y : Int)
    (hmiss : truthy (cacheRaw g) = none)
    (hlevel : level < 0 ∨ (s.levelCount : Int) ≤ level) :
    dzi_tile g false (some s) level x y = (.notFound, [.openSlide]) ∧
    DecoderOp.extractTile ∉ (dzi_tile g false (some s) level x y).2 := by
  have h : dzi_tile g false (some s) level x y = (.notFound, [.openSlide]) := by
    simp [dzi_tile, hmiss, get_tile, hlevel]
  refine ⟨h, ?_⟩
  rw [h]
  decide

/-- C4 witness: the amended statement at the counterexample's concrete
input, level 5 of a three-level slide. -/
theorem C4_witness :
    dzi_tile (.ok none) false (some c4Slide) 5 0 0 = (.notFound, [.openSlide]) ∧
    DecoderOp.extractTile ∉ (dzi_tile (.ok none) false (some c4Slide) 5 0 0).2 :=
  C4_invalid_level_notfound_no_extraction (.ok none) c4Slide 5 0 0 rfl
    (Or.inr (by decide))

/-! ### C7: the cache is behaviourally optional

The request-tracking middleware of `app/main.py` initializes every
request's cancelled flag to False and nothing in the program ever sets it
to True, so the handlers below are considered with `cancelled = false`.
The `cache.setex` writes sit in `try/except` blocks after the response
bytes are already computed, so no input of the model can make a set
failure affect the response.  Coherence of the backend — a cache hit
holds exactly the bytes this request would compute without the cache — is
the stated hypothesis; under it, the real backend, a failing backend and
the no-op backend are response-identical.
-/

/-- C7: with a coherent cache, replacing the backend by the no-op
implementation (`cache.get` always misses) leaves the `/api/thumb` and
tile responses identical, and a cache-get failure is swallowed into
exactly the no-op behaviour for both handlers. -/
theorem C7_noop_cache_substitutable
    (g : Except Unit (Option (List Nat)))
    (resolvedT : Option (List Char)) (preview : Except Unit (List Nat))
    (resolvedS : Option Slide) (level x y : Int)
    (hthumb : ∀ v, truthy (cacheRaw g) = some v →
      api_thumb (.ok none) false resolvedT preview = .ok v)
    (htile : ∀ v, truthy (cacheRaw g) = some v →
      (dzi_tile (.ok none) false resolvedS level x y).1 = .ok v) :
    api_thumb g false resolvedT preview
        = api_thumb (.ok none) false resolvedT preview ∧
    (dzi_tile g false resolvedS level x y).1
        = (dzi_tile (.ok none) false resolvedS level x y).1 ∧
    (∀ cancelled, api_thumb (.error ()) cancelled resolvedT preview
        = api_thumb (.ok none) cancelled resolvedT preview) ∧
    (∀ cancelled, dzi_tile (.error ()) cancelled resolvedS level x y
        = dzi_tile (.ok none) cancelled resolvedS level x y) := by
  refine ⟨?_, ?_, fun cancelled => rfl, fun cancelled => rfl⟩
  · cases hv : truthy (cacheRaw g) with
    | none =>
      unfold api_thumb
      rw [hv]
      rfl
    | some v =>
      have hl : api_thumb g false resolvedT preview = .ok v := by
        unfold api_thumb
        rw [hv]
      rw [hl, hthumb v hv]
  · cases hv : truthy (cacheRaw g) with
    | none =>
      unfold dzi_tile
      rw [hv]
      rfl
    | some v =>
      have hl : (dzi_tile g false resolvedS level x y).1 = .ok v := by
        unfold dzi_tile
        rw [hv]
      rw [hl, htile v hv]

/-- C7 witness: a concrete coherent instance — the cache holds the byte
string the producers would compute — evaluated for both handlers and for
the failure-swallowing conjuncts. -/
theorem C7_witness :
    api_thumb (.ok (some [7])) false (some "/a".toList) (.ok [7])
        = api_thumb (.ok none) false (some "/a".toList) (.ok [7]) ∧
    (dzi_tile (.ok (some [7])) false (some { levelCount := 3, tileJpeg := fun _ _ _ => .ok [7] }) 1 0 0).1
        = (dzi_tile (.ok none) false (some { levelCount := 3, tileJpeg := fun _ _ _ => .ok [7] }) 1 0 0).1 ∧
    (∀ cancelled, api_thumb (.error ()) cancelled (some "/a".toList) (.ok [7])
        = api_thumb (.ok none) cancelled (some "/a".toList) (.ok [7])) ∧
    (∀ cancelled, dzi_tile (.error ()) cancelled (some { levelCount := 3, tileJpeg := fun _ _ _ => .ok [7] }) 1 0 0
        = dzi_tile (.ok none) cancelled (some { levelCount := 3, tileJpeg := fun _ _ _ => .ok [7] }) 1 0 0) :=
  C7_noop_cache_substitutable (.ok (some [7])) (some "/a".toList) (.ok [7])
    (some { levelCount := 3, tileJpeg := fun _ _ _ => .ok [7] }) 1 0 0
    (fun v hv => by cases hv; rfl)
    (fun v hv => by cases hv; rfl)

/-! ### SlideResolver (`app/main.py`, `resolve_by_id_fast`) -/

/-- Lookup in the association-list model of the `path_cache` dict. -/
def lookupA (t : List (List Char × List Char)) (k : List Char) : Option (List Char) :=
  match t.find? fun e => e.1 == k with
  | some e => some e.2
  | none => none

/-- `del path_cache[slide_id]` in the association-list model. -/
def eraseA (t : List (List Char × List Char)) (k : List Char) :
    List (List Char × List Char) :=
  t.filter fun e => e.1 != k

/-- `resolve_by_id_fast(slide_id)` from `app/main.py`: consult the
acceleration table; a hit whose target still exists is returned; a hit
whose target no longer exists deletes the entry and then falls through to
the `FileNotFoundError` (modelled `none`); a miss fails immediately.  The
second component is the table state after the call. -/
def resolve_by_id_fast (table : List (List Char × List Char))
    (pathExists : List Char → Bool) (slide_id : List Char) :
    Option (List Char) × List (List Char × List Char) :=
  match lookupA table slide_id with
  | some p => if pathExists p then (some p, table) else (none, eraseA table slide_id)
  | none => (none, table)

theorem lookupA_cons_pos (e : List Char × List Char)
    (rest : List (List Char × List Char)) (k : List Char)
    (h : (e.1 == k) = true) : lookupA (e :: rest) k = some e.2 := by
  unfold lookupA
  rw [@List.find?_cons_of_pos _ (fun e => e.1 == k) e rest h]

theorem lookupA_cons_neg (e : List Char × List Char)
    (rest : List (List Char × List Char)) (k : List Char)
    (h : (e.1 == k) = false) : lookupA (e :: rest) k = lookupA rest k := by
  unfold lookupA
  rw [@List.find?_cons_of_neg _ (fun e => e.1 == k) e rest (by simp [h])]

theorem lookupA_eraseA_ne (t : List (List Char × List Char))
    (i k : List Char) (hk : k ≠ i) :
    lookupA (eraseA t i) k = lookupA t k := by
  induction t with
  | nil => rfl
  | cons e rest ih =>
    by_cases he : e.1 = i
    · have h1 : (e.1 != i) = false := by simp [he]
      have h2 : (e.1 == k) = false := by
        simp only [beq_eq_false_iff_ne, ne_eq, he]
        exact fun hh => hk hh.symm
      rw [eraseA, List.filter_cons, h1]
      simp only [Bool.false_eq_true, if_false]
      rw [show List.filter (fun e => e.1 != i) rest = eraseA rest i from rfl, ih,
        lookupA_cons_neg e rest k h2]
    · have h1 : (e.1 != i) = true := by simp [he]
      rw [eraseA, List.filter_cons, h1]
      simp only [if_true]
      by_cases h2 : (e.1 == k) = true
      · rw [show List.filter (fun e => e.1 != i) rest = eraseA rest i from rfl,
          lookupA_cons_pos _ _ k h2, lookupA_cons_pos e rest k h2]
      · have h3 : (e.1 == k) = false := by
          cases hq : (e.1 == k) with
          | true => exact absurd hq h2
          | false => rfl
        rw [show List.filter (fun e => e.1 != i) rest = eraseA rest i from rfl,
          lookupA_cons_neg _ _ k h3, lookupA_cons_neg e rest k h3, ih]

theorem lookupA_eraseA_self (t : List (List Char × List Char)) (i : List Char) :
    lookupA (eraseA t i) i = none := by
  induction t with
  | nil => rfl
  | cons e rest ih =>
    by_cases he : e.1 = i
    · have h1 : (e.1 != i) = false := by simp [he]
      rw [eraseA, List.filter_cons, h1]
      simp only [Bool.false_eq_true, if_false]
      exact ih
    · have h1 : (e.1 != i) = true := by simp [he]
      have h2 : (e.1 == i) = false := by simp [he]
      rw [eraseA, List.filter_cons, h1]
      simp only [if_true]
      rw [show List.filter (fun e => e.1 != i) rest = eraseA rest i from rfl,
        lookupA_cons_neg _ _ i h2]
      exact ih

/-- C9: looking up an id whose recorded target no longer exists reports
NotFound and deletes exactly that entry from the acceleration table —
the stale id is gone afterwards, every other id still resolves to the
same path, and no other lookup outcome modifies the table (stale entries
are only ever removed by such a lookup, never swept eagerly). -/
theorem C9_stale_entry_lazy_eviction
    (table : List (List Char × List Char)) (pathExists : List Char → Bool)
    (slide_id p : List Char)
    (hhit : lookupA table slide_id = some p) (hstale : pathExists p = false) :
    resolve_by_id_fast table pathExists slide_id = (none, eraseA table slide_id) ∧
    lookupA (resolve_by_id_fast table pathExists slide_id).2 slide_id = none ∧
    (∀ k, k ≠ slide_id →
      lookupA (resolve_by_id_fast table pathExists slide_id).2 k = lookupA table k) ∧
    (∀ pe2 : List Char → Bool, pe2 p = true →
      resolve_by_id_fast table pe2 slide_id = (some p, table)) := by
  have hres : resolve_by_id_fast table pathExists slide_id
      = (none, eraseA table slide_id) := by
    simp [resolve_by_id_fast, hhit, hstale]
  refine ⟨hres, ?_, ?_, ?_⟩
  · rw [hres]
    exact lookupA_eraseA_self table slide_id
  · intro k hk
    rw [hres]
    exact lookupA_eraseA_ne table slide_id k hk
  · intro pe2 hp
    simp [resolve_by_id_fast, hhit, hp]

/-- C9 witness: a two-entry table where the looked-up id's target is
missing — the call reports NotFound, removes that entry, and leaves the
other entry resolvable. -/
theorem C9_witness :
    resolve_by_id_fast [("id1".toList, "p1".toList), ("id2".toList, "p2".toList)]
        (fun p => p == "p2".toList) "id1".toList
      = (none, eraseA [("id1".toList, "p1".toList), ("id2".toList, "p2".toList)]
          "id1".toList) ∧
    lookupA (resolve_by_id_fast [("id1".toList, "p1".toList), ("id2".toList, "p2".toList)]
        (fun p => p == "p2".toList) "id1".toList).2 "id1".toList = none ∧
    (∀ k, k ≠ "id1".toList →
      lookupA (resolve_by_id_fast [("id1".toList, "p1".toList), ("id2".toList, "p2".toList)]
          (fun p => p == "p2".toList) "id1".toList).2 k
        = lookupA [("id1".toList, "p1".toList), ("id2".toList, "p2".toList)] k) ∧
    (∀ pe2 : List Char → Bool, pe2 "p1".toList = true →
      resolve_by_id_fast [("id1".toList, "p1".toList), ("id2".toList, "p2".toList)]
          pe2 "id1".toList
        = (some "p1".toList,
           [("id1".toList, "p1".toList), ("id2".toList, "p2".toList)])) :=
  C9_stale_entry_lazy_eviction
    [("id1".toList, "p1".toList), ("id2".toList, "p2".toList)]
    (fun p => p == "p2".toList) "id1".toList "p1".toList (by decide) (by decide)
